import Mathlib

/-!
Verification of the SymbulationEmp SGP-mode CPU core:
`source/sgp_mode/CPU.h` (jump-table construction in `InitializeState`,
`Mutate`, `Reset`) and `source/sgp_mode/Instructions.h` (the `inst`
namespace of CPU instructions).

Shallow embedding conventions:
  - 32-bit unsigned registers are `Nat` values kept below `2^32` by an
    explicit wrap on every write (`wrap32`);
  - the floating-point `points` currency is modelled over `ℚ` (the code
    uses `double`; the arithmetic the claims concern — comparison,
    addition, subtraction, multiplication by constant fractions — is
    modelled exactly);
  - the external task scorer `TaskSet::CheckTasks(state, value, shared)`
    is an abstract parameter `scorer : Nat → Bool → ℚ`;
  - monitoring data nodes (`GetSymEarnedDataNode` etc.) are modelled as
    lists of recorded data;
  - the thread-local random generator is an oracle parameter.
-/

/-- The modulus of 32-bit unsigned arithmetic. -/
def u32Mod : Nat := 2 ^ 32

/-- Wraparound applied on every write of a `uint32_t` register. -/
def wrap32 (x : Nat) : Nat := x % u32Mod

/-- Opcodes of the SGP instruction set defined in `Instructions.h`
(plus the two jump opcodes consulted by `CPU::InitializeState`). -/
inductive OpCode where
  | JumpIfNEq | JumpIfLess
  | Increment | Decrement
  | ShiftLeft | ShiftRight
  | Add | Subtract | Nand
  | Push | Pop | SwapStack | Swap
  | Reproduce | PrivateIO | SharedIO
  | Donate | Steal
  | ReuptakePublic | ReuptakePrivate
  | InternalPrivate | InternalShared
  | Nop
deriving DecidableEq, Repr

/-- One program instruction: opcode, up to three register-operand
indices, and an associative tag (opaque; modelled as `Nat`). -/
structure Instruction where
  op_code : OpCode
  arg0 : Nat := 0
  arg1 : Nat := 0
  arg2 : Nat := 0
  tag : Nat := 0
deriving DecidableEq, Repr

/-- The active execution core: register file and program counter.
In the C++ the registers are `float` storage that every instruction in
`Instructions.h` reinterprets as `uint32_t`, so we model them directly
as 32-bit unsigned values. -/
structure Core where
  registers : List Nat
  programCounter : Nat
deriving DecidableEq, Repr

/-- Reads register `i` (`core.registers[inst.args[k]]`). -/
def getReg (core : Core) (i : Nat) : Nat := core.registers.getD i 0

/-- Writes register `i`, wrapping to 32 bits as a `uint32_t` store does. -/
def setReg (core : Core) (i : Nat) (v : Nat) : Core :=
  { core with registers := core.registers.set i (wrap32 v) }

/-- `core.JumpToIndex(idx)`: transfers control to program index `idx`. -/
def jumpToIndex (core : Core) (idx : Nat) : Core :=
  { core with programCounter := idx }

/-- The per-organism mutable state `CPUState` — the fields used by the
instructions and by `CPU::InitializeState`.  `in_progress_repro` is an
integer index with `-1` meaning no reproduction pending.  Stacks grow at
the back (`push_back` appends, `back` reads the last element). -/
structure CPUState where
  jump_table : List Nat
  stack : List Nat
  stack2 : List Nat
  input_buf : List Nat
  in_progress_repro : Int
  locationValid : Bool
  location : Nat
  internalEnvironment : List Nat
  internalEnvironmentPrivate : List Nat
  internalPrivate : Bool
  self_completed : List Nat
  shared_completed : List Nat
deriving DecidableEq, Repr

/-- The organism that owns the CPU (`state.host` in the C++): its points
balance, its role, and an identity used for reproduction-queue entries. -/
structure Organism where
  points : ℚ
  isHost : Bool
  orgId : Nat
deriving DecidableEq, Repr

/-- The configuration accessors consumed by the instructions. -/
structure Config where
  HOST_REPRO_RES : ℚ
  SYM_HORIZ_TRANS_RES : ℚ
  DONATION_STEAL_INST : Bool
  DONATE_PENALTY : ℚ
  STEAL_PENALTY : ℚ
  RANDOM_IO_INPUT : Bool
deriving DecidableEq, Repr

/-- The world-level state the instructions touch: the reproduction queue
(entries are organism-id × location pairs) and the configuration. -/
structure World where
  to_reproduce : List (Nat × Nat)
  config : Config
deriving DecidableEq, Repr

namespace inst

/-- `INST(JumpIfNEq, ...)`: if the two operand registers differ, jump to
the precomputed jump-table entry at the current program counter. -/
def JumpIfNEq (state : CPUState) (core : Core) (a b : Nat) : Core :=
  if getReg core a ≠ getReg core b then
    jumpToIndex core (state.jump_table.getD core.programCounter 0)
  else core

/-- `INST(JumpIfLess, ...)`: if the first operand register is less than
the second, jump to the jump-table entry at the current program counter. -/
def JumpIfLess (state : CPUState) (core : Core) (a b : Nat) : Core :=
  if getReg core a < getReg core b then
    jumpToIndex core (state.jump_table.getD core.programCounter 0)
  else core

/-- `INST(Increment, { ++*a; })`. -/
def Increment (core : Core) (a : Nat) : Core :=
  setReg core a (getReg core a + 1)

/-- `INST(Decrement, { --*a; })`: unsigned decrement, wrapping at 0. -/
def Decrement (core : Core) (a : Nat) : Core :=
  setReg core a (getReg core a + (u32Mod - 1))

/-- `INST(ShiftLeft, { *a <<= 1; })`. -/
def ShiftLeft (core : Core) (a : Nat) : Core :=
  setReg core a (getReg core a * 2)

/-- `INST(ShiftRight, { *a >>= 1; })`. -/
def ShiftRight (core : Core) (a : Nat) : Core :=
  setReg core a (getReg core a / 2)

/-- `INST(Add, { *a = *b + *c; })`: unsigned 32-bit addition. -/
def Add (core : Core) (a b c : Nat) : Core :=
  setReg core a (getReg core b + getReg core c)

/-- `INST(Subtract, { *a = *b - *c; })`: unsigned 32-bit subtraction,
modelled by adding the modular complement of the subtrahend. -/
def Subtract (core : Core) (a b c : Nat) : Core :=
  setReg core a (getReg core b + (u32Mod - getReg core c))

/-- `INST(Nand, { *a = ~(*b & *c); })`: 32-bit complement written as an
xor with the all-ones mask. -/
def Nand (core : Core) (a b c : Nat) : Core :=
  setReg core a (Nat.xor (Nat.land (getReg core b) (getReg core c)) (u32Mod - 1))

/-- `INST(Push, ...)`: appends the register value to the primary stack
unless the stack already holds 16 elements, in which case the value is
silently dropped. -/
def Push (state : CPUState) (core : Core) (a : Nat) : CPUState :=
  if state.stack.length < 16 then
    { state with stack := state.stack ++ [getReg core a] }
  else state

/-- `INST(Pop, ...)`: writes the back of the primary stack to the
register and removes it; an empty stack yields 0. -/
def Pop (state : CPUState) (core : Core) (a : Nat) : CPUState × Core :=
  match state.stack.getLast? with
  | none => (state, setReg core a 0)
  | some v => ({ state with stack := state.stack.dropLast }, setReg core a v)

/-- `INST(SwapStack, ...)`: exchanges the two stacks. -/
def SwapStack (state : CPUState) : CPUState :=
  { state with stack := state.stack2, stack2 := state.stack }

/-- `INST(Swap, ...)`: exchanges two registers. -/
def Swap (core : Core) (a b : Nat) : Core :=
  let va := getReg core a
  let vb := getReg core b
  setReg (setReg core a vb) b va

/-- The role-specific reproduction cost chosen inside `Reproduce`. -/
def reproCost (org : Organism) (cfg : Config) : ℚ :=
  if org.isHost then cfg.HOST_REPRO_RES else cfg.SYM_HORIZ_TRANS_RES

/-- `INST(Reproduce, ...)`: a no-op when a reproduction is already
pending or the location is invalid; otherwise, when the points balance
strictly exceeds the role-specific cost, deducts the cost, records the
queue index as the pending marker, and appends (organism, location) to
the world reproduction queue. -/
def Reproduce (state : CPUState) (org : Organism) (world : World) :
    CPUState × Organism × World :=
  if state.in_progress_repro ≠ -1 ∨ ¬state.locationValid then
    (state, org, world)
  else
    let points := reproCost org world.config
    if org.points > points then
      ({ state with in_progress_repro := Int.ofNat world.to_reproduce.length },
       { org with points := org.points - points },
       { world with
          to_reproduce := world.to_reproduce ++ [(org.orgId, state.location)] })
    else (state, org, world)

/-- The scoring block of `INST(PrivateIO, ...)`: calls the scorer with
the shared flag false; on a nonzero score, symbionts record the score to
the symbiont-earned monitor and are credited in full, hosts are credited
75 percent of it. -/
def privateIOScore (scorer : Nat → Bool → ℚ) (output : Nat) (org : Organism)
    (symEarned : List ℚ) : Organism × List ℚ :=
  let score := scorer output false
  if score ≠ 0 then
    if ¬org.isHost then
      ({ org with points := org.points + score }, symEarned ++ [score])
    else
      ({ org with points := org.points + score * (3 / 4) }, symEarned)
  else (org, symEarned)

/-- The next-input value generated at the end of the IO instructions:
a pseudorandom value when RANDOM_IO_INPUT is set, else the constant 1. -/
def nextInput (cfg : Config) (rand : Nat) : Nat :=
  if cfg.RANDOM_IO_INPUT then rand else 1

/-- `INST(PrivateIO, ...)`: scores the register value on the private
path, credits points (with the host discount), then overwrites the
register with a fresh input value and appends it to the input buffer. -/
def PrivateIO (scorer : Nat → Bool → ℚ) (cfg : Config) (rand : Nat)
    (state : CPUState) (core : Core) (org : Organism) (symEarned : List ℚ)
    (a : Nat) : CPUState × Core × Organism × List ℚ :=
  let scored := privateIOScore scorer (getReg core a) org symEarned
  let next := nextInput cfg rand
  ({ state with input_buf := state.input_buf ++ [next] },
   setReg core a next, scored.1, scored.2)

/-- The helper `AddOrganismPoints(state, output)`: calls the scorer with
the shared flag true; on a nonzero score, credits the full score to the
organism and, for symbionts, records it to the symbiont-earned monitor. -/
def AddOrganismPoints (scorer : Nat → Bool → ℚ) (output : Nat)
    (org : Organism) (symEarned : List ℚ) : Organism × List ℚ :=
  let score := scorer output true
  if score ≠ 0 then
    ({ org with points := org.points + score },
     if ¬org.isHost then symEarned ++ [score] else symEarned)
  else (org, symEarned)

/-- `INST(SharedIO, ...)`: scores the register value through
`AddOrganismPoints`, then overwrites the register with a fresh input
value and appends it to the input buffer. -/
def SharedIO (scorer : Nat → Bool → ℚ) (cfg : Config) (rand : Nat)
    (state : CPUState) (core : Core) (org : Organism) (symEarned : List ℚ)
    (a : Nat) : CPUState × Core × Organism × List ℚ :=
  let scored := AddOrganismPoints scorer (getReg core a) org symEarned
  let next := nextInput cfg rand
  ({ state with input_buf := state.input_buf ++ [next] },
   setReg core a next, scored.1, scored.2)

/-- `INST(Donate, ...)`: when enabled and the acting organism is a
symbiont with a live host reference, transfers the minimum of the
symbiont balance and 20 percent of the combined balance out of the
symbiont, credits the host that amount less the donation penalty
fraction, and records the pre-penalty amount to the donated monitor. -/
def Donate (cfg : Config) (org : Organism) (hostRef : Option Organism)
    (symDonated : List ℚ) : Organism × Option Organism × List ℚ :=
  if cfg.DONATION_STEAL_INST then
    if org.isHost then (org, hostRef, symDonated)
    else
      match hostRef with
      | some host =>
          let to_donate := min org.points ((org.points + host.points) * (1 / 5))
          ({ org with points := org.points - to_donate },
           some { host with
                    points := host.points + to_donate * (1 - cfg.DONATE_PENALTY) },
           symDonated ++ [to_donate])
      | none => (org, hostRef, symDonated)
  else (org, hostRef, symDonated)

/-- `INST(Steal, ...)`: when enabled and the acting organism is a
symbiont with a live host reference, transfers the minimum of the host
balance and 20 percent of the combined balance out of the host, credits
the symbiont that amount less the theft penalty fraction, and records
the pre-penalty amount to the stolen monitor. -/
def Steal (cfg : Config) (org : Organism) (hostRef : Option Organism)
    (symStolen : List ℚ) : Organism × Option Organism × List ℚ :=
  if cfg.DONATION_STEAL_INST then
    if org.isHost then (org, hostRef, symStolen)
    else
      match hostRef with
      | some host =>
          let to_steal := min host.points ((org.points + host.points) * (1 / 5))
          ({ org with points := org.points + to_steal * (1 - cfg.STEAL_PENALTY) },
           some { host with points := host.points - to_steal },
           symStolen ++ [to_steal])
      | none => (org, hostRef, symStolen)
  else (org, hostRef, symStolen)

/-- `INST(ReuptakePublic, ...)`: scores the register value through
`AddOrganismPoints`, then pops the back of the public internal
environment into the register and input buffer; when it is empty, the
register is reset to 0 instead. -/
def ReuptakePublic (scorer : Nat → Bool → ℚ) (state : CPUState)
    (core : Core) (org : Organism) (symEarned : List ℚ) (a : Nat) :
    CPUState × Core × Organism × List ℚ :=
  let scored := AddOrganismPoints scorer (getReg core a) org symEarned
  match state.internalEnvironment.getLast? with
  | some next =>
      ({ state with
          internalEnvironment := state.internalEnvironment.dropLast,
          input_buf := state.input_buf ++ [next] },
       setReg core a next, scored.1, scored.2)
  | none => (state, setReg core a 0, scored.1, scored.2)

/-- `INST(ReuptakePrivate, ...)`: identical to `ReuptakePublic` but
drains the private internal environment. -/
def ReuptakePrivate (scorer : Nat → Bool → ℚ) (state : CPUState)
    (core : Core) (org : Organism) (symEarned : List ℚ) (a : Nat) :
    CPUState × Core × Organism × List ℚ :=
  let scored := AddOrganismPoints scorer (getReg core a) org symEarned
  match state.internalEnvironmentPrivate.getLast? with
  | some next =>
      ({ state with
          internalEnvironmentPrivate := state.internalEnvironmentPrivate.dropLast,
          input_buf := state.input_buf ++ [next] },
       setReg core a next, scored.1, scored.2)
  | none => (state, setReg core a 0, scored.1, scored.2)

end inst

/-- `std::vector::resize(n)` on a vector of value-initialised elements:
truncates past `n`, pads with zeros up to `n`. -/
def resizeList (l : List Nat) (n : Nat) : List Nat :=
  l.take n ++ List.replicate (n - l.length) 0

/-- The opcode test of the jump-table loop in `CPU::InitializeState`:
`i.op_code == JumpNeq || i.op_code == JumpLess`. -/
def isJumpClass (op : OpCode) : Bool :=
  op = OpCode.JumpIfNEq || op = OpCode.JumpIfLess

/-- The entry computed for a jump-class instruction at index `idx`:
`entry.size() > 0 ? table.GetVal(entry.front()) : idx + 1`, where the
anchor table's regulated matching (`MatchRegulated`) is the abstract
ranked match list `anchorMatches` and `getVal` maps a match to its target
instruction index. -/
def resolveEntry (anchorMatches : Nat → List Nat) (getVal : Nat → Nat)
    (tag idx : Nat) : Nat :=
  match anchorMatches tag with
  | [] => idx + 1
  | m :: _ => getVal m

/-- The loop of `CPU::InitializeState` writing jump-table entries: walks
the program with a running index, storing `resolveEntry` at the index of
every jump-class instruction. -/
def writeJumpEntriesAux (anchorMatches : Nat → List Nat) (getVal : Nat → Nat) :
    List Instruction → Nat → List Nat → List Nat
  | [], _, t => t
  | i :: rest, idx, t =>
      writeJumpEntriesAux anchorMatches getVal rest (idx + 1)
        (if isJumpClass i.op_code then
          t.set idx (resolveEntry anchorMatches getVal i.tag idx)
         else t)

/-- The jump-table part of `CPU::InitializeState`: resize the table to
100 entries, then write an entry for every jump-class instruction. -/
def initJumpTable (anchorMatches : Nat → List Nat) (getVal : Nat → Nat)
    (prog : List Instruction) (old : List Nat) : List Nat :=
  writeJumpEntriesAux anchorMatches getVal prog 0 (resizeList old 100)

/-- `CPU::InitializeState`: rebuilds the jump table and resizes the
task-completion bookkeeping vectors to the task-set cardinality.  Called
at CPU construction, from `Reset`, and from `Mutate`. -/
def initializeState (anchorMatches : Nat → List Nat) (getVal : Nat → Nat)
    (prog : List Instruction) (numTasks : Nat) (st : CPUState) : CPUState :=
  { st with
      jump_table := initJumpTable anchorMatches getVal prog st.jump_table,
      self_completed := resizeList st.self_completed numTasks,
      shared_completed := resizeList st.shared_completed numTasks }

/-- A bounds-checked write into the jump table: `some` exactly when the
index is within the vector, mirroring that `state.jump_table[idx]` in
the C++ is only defined behaviour for `idx` below the vector size. -/
def setChecked (t : List Nat) (i : Nat) (v : Nat) : Option (List Nat) :=
  if i < t.length then some (t.set i v) else none

/-- The jump-table loop with every write bounds-checked: returns `none`
as soon as a write would fall outside the table. -/
def writeJumpEntriesChecked (anchorMatches : Nat → List Nat) (getVal : Nat → Nat) :
    List Instruction → Nat → List Nat → Option (List Nat)
  | [], _, t => some t
  | i :: rest, idx, t =>
      if isJumpClass i.op_code then
        match setChecked t idx (resolveEntry anchorMatches getVal i.tag idx) with
        | none => none
        | some t2 => writeJumpEntriesChecked anchorMatches getVal rest (idx + 1) t2
      else writeJumpEntriesChecked anchorMatches getVal rest (idx + 1) t

/-- The bounds-checked variant of `initJumpTable`. -/
def initJumpTableChecked (anchorMatches : Nat → List Nat) (getVal : Nat → Nat)
    (prog : List Instruction) (old : List Nat) : Option (List Nat) :=
  writeJumpEntriesChecked anchorMatches getVal prog 0 (resizeList old 100)

/-- A fixed instruction used as a lookup default. -/
def dummyInstr : Instruction := { op_code := OpCode.Nop }

/-- Every register value of a well-formed core fits in 32 bits. -/
def coreWF (core : Core) : Prop := ∀ v ∈ core.registers, v < u32Mod

/-- Executes `Push` with the given value held in the operand register. -/
def pushValue (s : CPUState) (v : Nat) : CPUState :=
  inst.Push s { registers := [v], programCounter := 0 } 0

/-- Executes `Pop` and reads the value it left in the operand register. -/
def popValue (s : CPUState) : CPUState × Nat :=
  let r := inst.Pop s { registers := [0], programCounter := 0 } 0
  (r.1, getReg r.2 0)

/-- Executes `Push` once per value of the list, in order. -/
def pushSeq (s : CPUState) : List Nat → CPUState
  | [] => s
  | v :: vs => pushSeq (pushValue s v) vs

/-- Executes `Pop` the given number of times, collecting the values
returned into the register in execution order. -/
def popSeq (s : CPUState) : Nat → CPUState × List Nat
  | 0 => (s, [])
  | n + 1 =>
      let p := popValue s
      let r := popSeq p.1 n
      (r.1, p.2 :: r.2)

/-- A CPUState fixture with everything empty and no reproduction pending. -/
def baseState : CPUState :=
  { jump_table := [], stack := [], stack2 := [], input_buf := [],
    in_progress_repro := -1, locationValid := true, location := 0,
    internalEnvironment := [], internalEnvironmentPrivate := [],
    internalPrivate := false, self_completed := [], shared_completed := [] }

/-- A concrete configuration fixture. -/
def cfgW : Config :=
  { HOST_REPRO_RES := 4, SYM_HORIZ_TRANS_RES := 7,
    DONATION_STEAL_INST := true, DONATE_PENALTY := 1 / 10,
    STEAL_PENALTY := 1 / 10, RANDOM_IO_INPUT := false }

/-! ### Helper lemmas -/

lemma u32Mod_pos : 0 < u32Mod := by norm_num [u32Mod]

lemma wrap32_eq_self {x : Nat} (h : x < u32Mod) : wrap32 x = x :=
  Nat.mod_eq_of_lt h

lemma getReg_setReg_self (core : Core) (a v : Nat)
    (h : a < core.registers.length) : getReg (setReg core a v) a = wrap32 v := by
  simp [getReg, setReg, List.getD_eq_getElem?_getD, List.getElem?_set_self h]

lemma getReg_lt {core : Core} (h : coreWF core) (i : Nat) :
    getReg core i < u32Mod := by
  unfold getReg
  by_cases hi : i < core.registers.length
  · rw [List.getD_eq_getElem?_getD, List.getElem?_eq_getElem hi]
    exact h _ (List.getElem_mem hi)
  · rw [List.getD_eq_getElem?_getD, List.getElem?_eq_none (Nat.le_of_not_lt hi)]
    exact u32Mod_pos

/-! ### C9: 32-bit modular register arithmetic -/

/-- C9: all register arithmetic operates on unsigned 32-bit values with
modular wraparound: Increment and Decrement wrap modulo 2^32, Add stores
(b + c) mod 2^32, Subtract stores (b - c) mod 2^32, Nand stores the
bitwise complement of (b AND c), and ShiftLeft/ShiftRight shift the
register left/right by exactly one bit. -/
theorem arith_mod32_spec (core : Core) (a b c : Nat)
    (hwf : coreWF core) (ha : a < core.registers.length) :
    getReg (inst.Increment core a) a = (getReg core a + 1) % 2 ^ 32 ∧
    getReg (inst.Decrement core a) a
      = (((getReg core a : Int) - 1) % (2 ^ 32 : Int)).toNat ∧
    getReg (inst.Add core a b c) a = (getReg core b + getReg core c) % 2 ^ 32 ∧
    getReg (inst.Subtract core a b c) a
      = (((getReg core b : Int) - (getReg core c : Int)) % (2 ^ 32 : Int)).toNat ∧
    (∀ k, k < 32 → (getReg (inst.Nand core a b c) a).testBit k
      = !((getReg core b).testBit k && (getReg core c).testBit k)) ∧
    getReg (inst.ShiftLeft core a) a = (getReg core a <<< 1) % 2 ^ 32 ∧
    getReg (inst.ShiftRight core a) a = getReg core a >>> 1 := by
  have hva := getReg_lt hwf a
  have hvb := getReg_lt hwf b
  have hvc := getReg_lt hwf c
  have hM : u32Mod = 2 ^ 32 := rfl
  refine ⟨?_, ?_, ?_, ?_, ?_, ?_, ?_⟩
  · rw [inst.Increment, getReg_setReg_self _ _ _ ha, wrap32, hM]
  · rw [inst.Decrement, getReg_setReg_self _ _ _ ha, wrap32, hM]
    rw [hM] at hva
    simp only [show (2 : Nat) ^ 32 = 4294967296 from rfl,
      show (2 : Int) ^ 32 = 4294967296 from rfl] at *
    omega
  · rw [inst.Add, getReg_setReg_self _ _ _ ha, wrap32, hM]
  · rw [inst.Subtract, getReg_setReg_self _ _ _ ha, wrap32, hM]
    rw [hM] at hvb hvc
    simp only [show (2 : Nat) ^ 32 = 4294967296 from rfl,
      show (2 : Int) ^ 32 = 4294967296 from rfl] at *
    omega
  · intro k hk
    rw [inst.Nand, getReg_setReg_self _ _ _ ha,
      wrap32_eq_self (by
        rw [hM]
        exact Nat.xor_lt_two_pow
          (Nat.lt_of_le_of_lt Nat.and_le_left hvb) (by norm_num))]
    simp only [Nat.testBit_xor, Nat.testBit_and, Nat.land, Nat.xor, u32Mod]
    have h1 : Nat.testBit 4294967295 k = true := by
      rw [show (4294967295 : Nat) = 2 ^ 32 - 1 by norm_num,
        Nat.testBit_two_pow_sub_one]
      simpa using hk
    simp [h1, Bool.not_and]
  · rw [inst.ShiftLeft, getReg_setReg_self _ _ _ ha, wrap32, hM,
      Nat.shiftLeft_eq]
  · rw [inst.ShiftRight, getReg_setReg_self _ _ _ ha,
      wrap32_eq_self (Nat.lt_of_le_of_lt (Nat.div_le_self _ _) hva),
      Nat.shiftRight_eq_div_pow]

/-- Witness for C9 at a concrete core with registers 5, 6, 7. -/
theorem arith_mod32_spec_witness :
    getReg (inst.Add { registers := [5, 6, 7], programCounter := 0 } 0 1 2) 0
      = (6 + 7) % 2 ^ 32 ∧
    getReg (inst.Subtract { registers := [5, 6, 7], programCounter := 0 } 0 1 2) 0
      = (((6 : Int) - 7) % (2 ^ 32 : Int)).toNat := by
  have h := arith_mod32_spec { registers := [5, 6, 7], programCounter := 0 } 0 1 2
    (by intro v hv; fin_cases hv <;> norm_num [u32Mod]) (by norm_num)
  exact ⟨h.2.2.1, h.2.2.2.1⟩

/-! ### C7: jump dispatch consults the precomputed jump table -/

/-- C7: a JumpIfNEq or JumpIfLess instruction transfers control to the
precomputed jump-table entry at the current program-counter position if
and only if the opcode's condition holds on the two operand register
values (unequal for JumpIfNEq, first less than second for JumpIfLess);
otherwise the core is left unchanged. -/
theorem jump_dispatch_spec (state : CPUState) (core : Core) (a b : Nat) :
    (getReg core a ≠ getReg core b →
      inst.JumpIfNEq state core a b
        = jumpToIndex core (state.jump_table.getD core.programCounter 0)) ∧
    (getReg core a = getReg core b → inst.JumpIfNEq state core a b = core) ∧
    (getReg core a < getReg core b →
      inst.JumpIfLess state core a b
        = jumpToIndex core (state.jump_table.getD core.programCounter 0)) ∧
    (¬getReg core a < getReg core b → inst.JumpIfLess state core a b = core) := by
  refine ⟨?_, ?_, ?_, ?_⟩ <;> intro h <;>
    simp [inst.JumpIfNEq, inst.JumpIfLess, h]

/-- Witness for C7: with registers a=5, b=5 and jump-table entry 7 at
index 2, JumpIfNEq does not jump; with a=5, b=6 it jumps to 7. -/
theorem jump_dispatch_spec_witness :
    inst.JumpIfNEq { baseState with jump_table := [0, 0, 7] }
        { registers := [5, 6], programCounter := 2 } 0 1
      = { registers := [5, 6], programCounter := 7 } ∧
    inst.JumpIfNEq { baseState with jump_table := [0, 0, 7] }
        { registers := [5, 5], programCounter := 2 } 0 1
      = { registers := [5, 5], programCounter := 2 } := by
  constructor
  · have h := (jump_dispatch_spec { baseState with jump_table := [0, 0, 7] }
      { registers := [5, 6], programCounter := 2 } 0 1).1 (by decide)
    simpa [jumpToIndex] using h
  · have h := (jump_dispatch_spec { baseState with jump_table := [0, 0, 7] }
      { registers := [5, 5], programCounter := 2 } 0 1).2.1 (by decide)
    exact h

/-! ### C8: stack push/pop round-trip -/

lemma pushValue_stack (s : CPUState) (v : Nat) (h : s.stack.length < 16) :
    pushValue s v = { s with stack := s.stack ++ [v] } := by
  simp [pushValue, inst.Push, h, getReg]

lemma pushValue_full (s : CPUState) (v : Nat) (h : ¬s.stack.length < 16) :
    pushValue s v = s := by
  simp [pushValue, inst.Push, h]

lemma pushSeq_stack : ∀ (L : List Nat) (s : CPUState),
    s.stack.length + L.length ≤ 16 →
    pushSeq s L = { s with stack := s.stack ++ L }
  | [], s, _ => by simp [pushSeq]
  | v :: vs, s, h => by
      have hlt : s.stack.length < 16 := by
        simp at h
        omega
      rw [pushSeq, pushValue_stack s v hlt,
        pushSeq_stack vs { s with stack := s.stack ++ [v] }
          (by simp at h ⊢; omega)]
      simp

lemma popValue_empty (s : CPUState) (h : s.stack = []) :
    popValue s = (s, 0) := by
  simp [popValue, inst.Pop, h, getReg, setReg, wrap32]

lemma popValue_concat (s : CPUState) (l : List Nat) (v : Nat)
    (h : s.stack = l ++ [v]) (hv : v < u32Mod) :
    popValue s = ({ s with stack := l }, v) := by
  simp [popValue, inst.Pop, h, List.getLast?_concat, List.dropLast_concat,
    getReg, setReg, wrap32_eq_self hv]

lemma popSeq_reverse (l : List Nat) : ∀ (s : CPUState), s.stack = l →
    (∀ v ∈ l, v < u32Mod) →
    popSeq s l.length = ({ s with stack := [] }, l.reverse) := by
  induction l using List.reverseRecOn with
  | nil =>
      intro s h _
      have hs : ({ s with stack := [] } : CPUState) = s := by rw [← h]
      simp [popSeq, hs]
  | append_singleton l v ih =>
      intro s h hv
      have h1 : popValue s = ({ s with stack := l }, v) :=
        popValue_concat s l v h (hv v (by simp))
      have h2 : popSeq { s with stack := l } l.length
          = ({ s with stack := [] }, l.reverse) :=
        ih { s with stack := l } rfl (fun w hw => hv w (by simp [hw]))
      simp [popSeq, h1, h2]

/-- C8: starting from an empty primary stack, pushing 16 values and then
popping 16 times returns them in reverse order; a 17th push onto the
full stack leaves the state unchanged; a pop from the empty stack yields
0 and leaves the state unchanged. -/
theorem stack_roundtrip_spec (s : CPUState) (L : List Nat)
    (hs : s.stack = []) (hlen : L.length = 16) (hv : ∀ v ∈ L, v < u32Mod) :
    (popSeq (pushSeq s L) 16).2 = L.reverse ∧
    (∀ w, pushValue (pushSeq s L) w = pushSeq s L) ∧
    popValue s = (s, 0) := by
  have hpush : pushSeq s L = { s with stack := L } := by
    rw [pushSeq_stack L s (by rw [hs]; simpa using hlen.le), hs]
    simp
  refine ⟨?_, ?_, popValue_empty s hs⟩
  · rw [hpush, ← hlen,
      popSeq_reverse L { s with stack := L } rfl hv]
  · intro w
    rw [hpush, pushValue_full _ w (by simp [hlen])]

/-- Witness for C8 with the values 1..16 pushed onto an empty stack. -/
theorem stack_roundtrip_spec_witness :
    (popSeq (pushSeq baseState
        [1, 2, 3, 4, 5, 6, 7, 8, 9, 10, 11, 12, 13, 14, 15, 16]) 16).2
      = [1, 2, 3, 4, 5, 6, 7, 8, 9, 10, 11, 12, 13, 14, 15, 16].reverse ∧
    pushValue (pushSeq baseState
        [1, 2, 3, 4, 5, 6, 7, 8, 9, 10, 11, 12, 13, 14, 15, 16]) 99
      = pushSeq baseState
        [1, 2, 3, 4, 5, 6, 7, 8, 9, 10, 11, 12, 13, 14, 15, 16] ∧
    popValue baseState = (baseState, 0) := by
  have h := stack_roundtrip_spec baseState
    [1, 2, 3, 4, 5, 6, 7, 8, 9, 10, 11, 12, 13, 14, 15, 16]
    rfl (by decide) (by decide)
  exact ⟨h.1, h.2.1 99, h.2.2⟩

/-! ### C2: Reproduce instruction -/

/-- C2: executing Reproduce appends exactly one (organism, location)
entry to the world's reproduction queue, deducts the role-specific
reproduction cost from the organism's points, and sets the organism's
in-progress marker to the new entry's queue index, if and only if no
reproduction is already pending, the location is valid, and the points
balance exceeds the role-specific cost; in every other case Reproduce is
a silent no-op leaving points, queue, and marker unchanged. -/
theorem reproduce_spec (s : CPUState) (o : Organism) (w : World) :
    (s.in_progress_repro = -1 → s.locationValid = true →
      o.points > inst.reproCost o w.config →
      inst.Reproduce s o w
        = ({ s with in_progress_repro := Int.ofNat w.to_reproduce.length },
           { o with points := o.points - inst.reproCost o w.config },
           { w with to_reproduce := w.to_reproduce ++ [(o.orgId, s.location)] })) ∧
    (s.in_progress_repro ≠ -1 ∨ s.locationValid = false ∨
        ¬o.points > inst.reproCost o w.config →
      inst.Reproduce s o w = (s, o, w)) := by
  constructor
  · intro h1 h2 h3
    simp [inst.Reproduce, h1, h2, h3]
  · intro h
    rcases h with h | h | h
    · simp [inst.Reproduce, h]
    · simp [inst.Reproduce, h]
    · unfold inst.Reproduce
      split
      · rfl
      · simp [h]

/-- Witness for C2: a host with 10 points, host cost 4, empty queue and
valid location reproduces: entry appended at index 0, points become 6. -/
theorem reproduce_spec_witness :
    inst.Reproduce { baseState with location := 3 }
        { points := 10, isHost := true, orgId := 5 }
        { to_reproduce := [], config := cfgW }
      = ({ baseState with location := 3, in_progress_repro := Int.ofNat 0 },
         { points := 6, isHost := true, orgId := 5 },
         { to_reproduce := [(5, 3)], config := cfgW }) ∧
    inst.Reproduce { baseState with location := 3 }
        { points := 2, isHost := true, orgId := 5 }
        { to_reproduce := [], config := cfgW }
      = ({ baseState with location := 3 },
         { points := 2, isHost := true, orgId := 5 },
         { to_reproduce := [], config := cfgW }) := by
  constructor
  · have h := (reproduce_spec { baseState with location := 3 }
      { points := 10, isHost := true, orgId := 5 }
      { to_reproduce := [], config := cfgW }).1 rfl rfl
      (by norm_num [inst.reproCost, cfgW])
    rw [h]
    norm_num [inst.reproCost, cfgW, baseState]
  · exact (reproduce_spec { baseState with location := 3 }
      { points := 2, isHost := true, orgId := 5 }
      { to_reproduce := [], config := cfgW }).2
      (Or.inr (Or.inr (by norm_num [inst.reproCost, cfgW])))

/-! ### C3: private versus shared IO scoring -/

/-- C3: for every nonzero task score s returned by the scorer, PrivateIO
credits the acting organism 0.75 times s when it is a host and the full
s when it is a symbiont (additionally recording the score to the
symbiont-earned monitoring sink), while SharedIO credits the full score
s with no discount for either role. -/
theorem io_scoring_spec (scorer : Nat → Bool → ℚ) (cfg : Config) (rand : Nat)
    (s : CPUState) (core : Core) (o : Organism) (se : List ℚ) (a : Nat) :
    (scorer (getReg core a) false ≠ 0 → o.isHost = true →
      (inst.PrivateIO scorer cfg rand s core o se a).2.2.1.points
          = o.points + scorer (getReg core a) false * (3 / 4) ∧
      (inst.PrivateIO scorer cfg rand s core o se a).2.2.2 = se) ∧
    (scorer (getReg core a) false ≠ 0 → o.isHost = false →
      (inst.PrivateIO scorer cfg rand s core o se a).2.2.1.points
          = o.points + scorer (getReg core a) false ∧
      (inst.PrivateIO scorer cfg rand s core o se a).2.2.2
          = se ++ [scorer (getReg core a) false]) ∧
    (scorer (getReg core a) true ≠ 0 →
      (inst.SharedIO scorer cfg rand s core o se a).2.2.1.points
          = o.points + scorer (getReg core a) true) := by
  refine ⟨?_, ?_, ?_⟩
  · intro h1 h2
    constructor <;> simp [inst.PrivateIO, inst.privateIOScore, h1, h2]
  · intro h1 h2
    constructor <;> simp [inst.PrivateIO, inst.privateIOScore, h1, h2]
  · intro h
    simp [inst.SharedIO, inst.AddOrganismPoints, h]

/-- Witness for C3: a host whose scorer returns 10 gains 7.5 points via
PrivateIO and 10 points via SharedIO. -/
theorem io_scoring_spec_witness :
    (inst.PrivateIO (fun _ _ => 10) cfgW 0 baseState
        { registers := [0], programCounter := 0 }
        { points := 0, isHost := true, orgId := 0 } [] 0).2.2.1.points
      = 15 / 2 ∧
    (inst.SharedIO (fun _ _ => 10) cfgW 0 baseState
        { registers := [0], programCounter := 0 }
        { points := 0, isHost := true, orgId := 0 } [] 0).2.2.1.points
      = 10 := by
  have h := io_scoring_spec (fun _ _ => 10) cfgW 0 baseState
    { registers := [0], programCounter := 0 }
    { points := 0, isHost := true, orgId := 0 } [] 0
  constructor
  · rw [(h.1 (by norm_num) rfl).1]
    norm_num
  · rw [h.2.2 (by norm_num)]
    norm_num

/-! ### C4: donation and theft transfers -/

/-- C4: for every symbiont holding a live host reference with the
donation/theft instructions enabled, Donate transfers the minimum of the
symbiont balance and 20 percent of the combined points out of the
symbiont and credits the host that amount times (1 minus the donation
penalty); Steal transfers the minimum of the host balance and 20 percent
of the combined points out of the host and credits the symbiont that
amount times (1 minus the theft penalty); in both cases the transfer
never exceeds the source's balance, the combined total decreases by
exactly the penalty fraction applied to the transfer, and the
pre-penalty amount is recorded to the monitoring sink. -/
theorem donate_steal_spec (cfg : Config) (o host : Organism)
    (sd ss : List ℚ)
    (hen : cfg.DONATION_STEAL_INST = true) (hrole : o.isHost = false) :
    (min o.points ((o.points + host.points) * (1 / 5)) ≤ o.points ∧
     (inst.Donate cfg o (some host) sd).1.points
        = o.points - min o.points ((o.points + host.points) * (1 / 5)) ∧
     (inst.Donate cfg o (some host) sd).2.1
        = some { host with points := (host.points
            + min o.points ((o.points + host.points) * (1 / 5))
              * (1 - cfg.DONATE_PENALTY)) } ∧
     (inst.Donate cfg o (some host) sd).1.points
        + (host.points + min o.points ((o.points + host.points) * (1 / 5))
            * (1 - cfg.DONATE_PENALTY))
        = o.points + host.points
          - cfg.DONATE_PENALTY * min o.points ((o.points + host.points) * (1 / 5)) ∧
     (inst.Donate cfg o (some host) sd).2.2
        = sd ++ [min o.points ((o.points + host.points) * (1 / 5))]) ∧
    (min host.points ((o.points + host.points) * (1 / 5)) ≤ host.points ∧
     (inst.Steal cfg o (some host) ss).2.1
        = some { host with points := (host.points
            - min host.points ((o.points + host.points) * (1 / 5))) } ∧
     (inst.Steal cfg o (some host) ss).1.points
        = o.points + min host.points ((o.points + host.points) * (1 / 5))
            * (1 - cfg.STEAL_PENALTY) ∧
     (host.points - min host.points ((o.points + host.points) * (1 / 5)))
        + (inst.Steal cfg o (some host) ss).1.points
        = o.points + host.points
          - cfg.STEAL_PENALTY * min host.points ((o.points + host.points) * (1 / 5)) ∧
     (inst.Steal cfg o (some host) ss).2.2
        = ss ++ [min host.points ((o.points + host.points) * (1 / 5))]) := by
  constructor
  · refine ⟨min_le_left _ _, ?_, ?_, ?_, ?_⟩ <;>
      (simp [inst.Donate, hen, hrole]; try ring)
  · refine ⟨min_le_left _ _, ?_, ?_, ?_, ?_⟩ <;>
      (simp [inst.Steal, hen, hrole]; try ring)

/-- Witness for C4: symbiont with 10 points, host with 30 points, both
penalties 1/10: Donate moves 8 points out of the symbiont and credits
the host 7.2; Steal moves 8 points out of the host and credits the
symbiont 7.2. -/
theorem donate_steal_spec_witness :
    (inst.Donate cfgW { points := 10, isHost := false, orgId := 1 }
        (some { points := 30, isHost := true, orgId := 2 }) []).1.points = 2 ∧
    (inst.Donate cfgW { points := 10, isHost := false, orgId := 1 }
        (some { points := 30, isHost := true, orgId := 2 }) []).2.1
      = some { points := 186 / 5, isHost := true, orgId := 2 } ∧
    (inst.Steal cfgW { points := 10, isHost := false, orgId := 1 }
        (some { points := 30, isHost := true, orgId := 2 }) []).1.points
      = 86 / 5 := by
  have h := donate_steal_spec cfgW { points := 10, isHost := false, orgId := 1 }
    { points := 30, isHost := true, orgId := 2 } [] [] rfl rfl
  refine ⟨?_, ?_, ?_⟩
  · rw [h.1.2.1]
    norm_num
  · rw [h.1.2.2.1]
    norm_num [cfgW]
  · rw [h.2.2.2.1]
    norm_num [cfgW]

/-! ### C5: Reuptake instructions -/

/-- C5: the Reuptake instructions (public and private variants) first
score the value currently in the source register via the organism-level
scoring path (`AddOrganismPoints`), then pop one value from the back of
the corresponding internal-environment stack into the register and
append that same value to the input buffer; if that stack is empty, the
register is instead set to zero. -/
theorem reuptake_spec (scorer : Nat → Bool → ℚ) (s : CPUState) (core : Core)
    (o : Organism) (se : List ℚ) (a : Nat) :
    ((inst.ReuptakePublic scorer s core o se a).2.2.1
        = (inst.AddOrganismPoints scorer (getReg core a) o se).1 ∧
     (inst.ReuptakePublic scorer s core o se a).2.2.2
        = (inst.AddOrganismPoints scorer (getReg core a) o se).2) ∧
    (s.internalEnvironment = [] →
      (inst.ReuptakePublic scorer s core o se a).1 = s ∧
      (inst.ReuptakePublic scorer s core o se a).2.1 = setReg core a 0) ∧
    (∀ l v, s.internalEnvironment = l ++ [v] →
      (inst.ReuptakePublic scorer s core o se a).1.internalEnvironment = l ∧
      (inst.ReuptakePublic scorer s core o se a).2.1 = setReg core a v ∧
      (inst.ReuptakePublic scorer s core o se a).1.input_buf
          = s.input_buf ++ [v]) ∧
    ((inst.ReuptakePrivate scorer s core o se a).2.2.1
        = (inst.AddOrganismPoints scorer (getReg core a) o se).1 ∧
     (inst.ReuptakePrivate scorer s core o se a).2.2.2
        = (inst.AddOrganismPoints scorer (getReg core a) o se).2) ∧
    (s.internalEnvironmentPrivate = [] →
      (inst.ReuptakePrivate scorer s core o se a).1 = s ∧
      (inst.ReuptakePrivate scorer s core o se a).2.1 = setReg core a 0) ∧
    (∀ l v, s.internalEnvironmentPrivate = l ++ [v] →
      (inst.ReuptakePrivate scorer s core o se a).1.internalEnvironmentPrivate = l ∧
      (inst.ReuptakePrivate scorer s core o se a).2.1 = setReg core a v ∧
      (inst.ReuptakePrivate scorer s core o se a).1.input_buf
          = s.input_buf ++ [v]) := by
  refine ⟨?_, ?_, ?_, ?_, ?_, ?_⟩
  · cases h : s.internalEnvironment.getLast? <;>
      simp [inst.ReuptakePublic, h]
  · intro h
    constructor <;> simp [inst.ReuptakePublic, h]
  · intro l v h
    refine ⟨?_, ?_, ?_⟩ <;>
      simp [inst.ReuptakePublic, h, List.getLast?_concat, List.dropLast_concat]
  · cases h : s.internalEnvironmentPrivate.getLast? <;>
      simp [inst.ReuptakePrivate, h]
  · intro h
    constructor <;> simp [inst.ReuptakePrivate, h]
  · intro l v h
    refine ⟨?_, ?_, ?_⟩ <;>
      simp [inst.ReuptakePrivate, h, List.getLast?_concat, List.dropLast_concat]

/-- Witness for C5: with public internal environment [4, 9] the public
reuptake pops 9 into the register and input buffer; with an empty
private internal environment the private reuptake zeroes the register. -/
theorem reuptake_spec_witness :
    (inst.ReuptakePublic (fun _ _ => 10)
        { baseState with internalEnvironment := [4, 9] }
        { registers := [0], programCounter := 0 }
        { points := 0, isHost := true, orgId := 0 } [] 0).1.internalEnvironment
      = [4] ∧
    (inst.ReuptakePublic (fun _ _ => 10)
        { baseState with internalEnvironment := [4, 9] }
        { registers := [0], programCounter := 0 }
        { points := 0, isHost := true, orgId := 0 } [] 0).2.1
      = setReg { registers := [0], programCounter := 0 } 0 9 ∧
    (inst.ReuptakePrivate (fun _ _ => 10)
        { baseState with internalEnvironment := [4, 9] }
        { registers := [0], programCounter := 0 }
        { points := 0, isHost := true, orgId := 0 } [] 0).2.1
      = setReg { registers := [0], programCounter := 0 } 0 0 := by
  have h := reuptake_spec (fun _ _ => 10)
    { baseState with internalEnvironment := [4, 9] }
    { registers := [0], programCounter := 0 }
    { points := 0, isHost := true, orgId := 0 } [] 0
  refine ⟨(h.2.2.1 [4] 9 rfl).1, (h.2.2.1 [4] 9 rfl).2.1, ?_⟩
  exact (h.2.2.2.2.1 rfl).2

/-! ### Jump-table construction lemmas -/

lemma resizeList_length (l : List Nat) (n : Nat) :
    (resizeList l n).length = n := by
  simp [resizeList]
  omega

lemma writeJumpEntriesAux_length (am : Nat → List Nat) (gv : Nat → Nat) :
    ∀ (prog : List Instruction) (idx : Nat) (t : List Nat),
    (writeJumpEntriesAux am gv prog idx t).length = t.length
  | [], _, _ => rfl
  | i :: rest, idx, t => by
      rw [writeJumpEntriesAux,
        writeJumpEntriesAux_length am gv rest (idx + 1) _]
      split <;> simp

lemma writeJumpEntriesAux_getD_lt (am : Nat → List Nat) (gv : Nat → Nat) :
    ∀ (prog : List Instruction) (idx : Nat) (t : List Nat) (j : Nat), j < idx →
    (writeJumpEntriesAux am gv prog idx t).getD j 0 = t.getD j 0
  | [], _, _, _, _ => rfl
  | i :: rest, idx, t, j, hj => by
      rw [writeJumpEntriesAux,
        writeJumpEntriesAux_getD_lt am gv rest (idx + 1) _ j
          (Nat.lt_succ_of_lt hj)]
      split
      · simp [List.getD_eq_getElem?_getD, List.getElem?_set_ne (Nat.ne_of_gt hj)]
      · rfl

lemma writeJumpEntriesAux_entry (am : Nat → List Nat) (gv : Nat → Nat)
    (prog : List Instruction) :
    ∀ (idx : Nat) (t : List Nat) (k : Nat), k < prog.length →
    isJumpClass (prog.getD k dummyInstr).op_code = true →
    idx + k < t.length →
    (writeJumpEntriesAux am gv prog idx t).getD (idx + k) 0
      = resolveEntry am gv (prog.getD k dummyInstr).tag (idx + k) := by
  induction prog with
  | nil =>
      intro idx t k hk
      simp at hk
  | cons i rest ih =>
      intro idx t k hk hj hb
      cases k with
      | zero =>
          have hji : isJumpClass i.op_code = true := by simpa using hj
          rw [writeJumpEntriesAux,
            writeJumpEntriesAux_getD_lt am gv rest (idx + 1) _ (idx + 0)
              (by omega)]
          simp only [Nat.add_zero] at hb ⊢
          simp only [hji, if_true, List.getD_cons_zero]
          simp [List.getD_eq_getElem?_getD, List.getElem?_set_self hb]
      | succ k =>
          simp only [List.getD_cons_succ] at hj ⊢
          rw [writeJumpEntriesAux,
            show idx + (k + 1) = (idx + 1) + k from by omega]
          simp only [List.length_cons] at hk
          split
          · exact ih (idx + 1) _ k (by omega) hj
              (by simp only [List.length_set]; omega)
          · exact ih (idx + 1) _ k (by omega) hj (by omega)

lemma writeJumpEntriesChecked_isSome (am : Nat → List Nat) (gv : Nat → Nat)
    (prog : List Instruction) :
    ∀ (idx : Nat) (t : List Nat),
    (writeJumpEntriesChecked am gv prog idx t).isSome = true ↔
      (∀ k, k < prog.length →
        isJumpClass (prog.getD k dummyInstr).op_code = true →
        idx + k < t.length) := by
  induction prog with
  | nil =>
      intro idx t
      simp [writeJumpEntriesChecked]
  | cons i rest ih =>
      intro idx t
      rw [writeJumpEntriesChecked]
      by_cases hji : isJumpClass i.op_code = true
      · simp only [hji, if_true]
        by_cases hb : idx < t.length
        · rw [setChecked]
          simp only [hb, if_true]
          rw [ih (idx + 1) (t.set idx (resolveEntry am gv i.tag idx))]
          constructor
          · intro h k hk hj
            cases k with
            | zero => simpa using hb
            | succ k =>
                have := h k (by simp only [List.length_cons] at hk; omega)
                  (by simpa using hj)
                simp only [List.length_set] at this
                omega
          · intro h k hk hj
            have := h (k + 1) (by simp only [List.length_cons]; omega)
              (by simpa using hj)
            simp only [List.length_set]
            omega
        · rw [setChecked]
          simp only [hb, if_false]
          refine iff_of_false (by simp) ?_
          intro h
          exact hb (by simpa using h 0 (by simp) (by simpa using hji))
      · simp only [hji, Bool.false_eq_true, if_false]
        rw [ih (idx + 1) t]
        constructor
        · intro h k hk hj
          cases k with
          | zero => exact absurd (by simpa using hj) hji
          | succ k =>
              have := h k (by simp only [List.length_cons] at hk; omega)
                (by simpa using hj)
              omega
        · intro h k hk hj
          have := h (k + 1) (by simp only [List.length_cons]; omega)
            (by simpa using hj)
          omega

lemma writeJumpEntriesChecked_eq (am : Nat → List Nat) (gv : Nat → Nat)
    (prog : List Instruction) :
    ∀ (idx : Nat) (t : List Nat),
    (∀ k, k < prog.length →
      isJumpClass (prog.getD k dummyInstr).op_code = true →
      idx + k < t.length) →
    writeJumpEntriesChecked am gv prog idx t
      = some (writeJumpEntriesAux am gv prog idx t) := by
  induction prog with
  | nil =>
      intro idx t _
      rfl
  | cons i rest ih =>
      intro idx t h
      rw [writeJumpEntriesChecked, writeJumpEntriesAux]
      by_cases hji : isJumpClass i.op_code = true
      · have hb : idx < t.length := by simpa using h 0 (by simp) (by simpa using hji)
        rw [setChecked]
        simp only [hji, if_true, hb]
        rw [ih (idx + 1) (t.set idx (resolveEntry am gv i.tag idx))]
        intro k hk hj
        have := h (k + 1) (by simp only [List.length_cons]; omega)
          (by simpa using hj)
        simp only [List.length_set]
        omega
      · simp only [hji, Bool.false_eq_true, if_false]
        rw [ih (idx + 1) t]
        intro k hk hj
        have := h (k + 1) (by simp only [List.length_cons]; omega)
          (by simpa using hj)
        omega

/-! ### C6: jump-target resolution at build time -/

/-- C6: at jump-table build time, for every jump-class instruction at
program index k whose tag matches no registered global anchor, the
resolved jump-table entry at k equals k + 1; when at least one anchor
matches, the entry equals the target of the best (first-ranked) match. -/
theorem jump_resolution_spec (am : Nat → List Nat) (gv : Nat → Nat)
    (prog : List Instruction) (old : List Nat) (k : Nat)
    (hk : k < prog.length) (hk100 : k < 100)
    (hj : isJumpClass (prog.getD k dummyInstr).op_code = true) :
    (am (prog.getD k dummyInstr).tag = [] →
      (initJumpTable am gv prog old).getD k 0 = k + 1) ∧
    (∀ m ms, am (prog.getD k dummyInstr).tag = m :: ms →
      (initJumpTable am gv prog old).getD k 0 = gv m) := by
  have h := writeJumpEntriesAux_entry am gv prog 0 (resizeList old 100) k hk hj
    (by rw [resizeList_length]; omega)
  rw [Nat.zero_add] at h
  constructor
  · intro hm
    rw [initJumpTable, h]
    unfold resolveEntry
    rw [hm]
  · intro m ms hm
    rw [initJumpTable, h]
    unfold resolveEntry
    rw [hm]

/-- Witness for C6: a two-instruction program whose first jump tag has
no anchor match (entry 0 + 1) and whose second matches anchor 2 with
target 20. -/
theorem jump_resolution_spec_witness :
    (initJumpTable (fun t => if t = 6 then [2] else []) (fun m => m * 10)
        [{ op_code := OpCode.JumpIfNEq, tag := 5 },
         { op_code := OpCode.JumpIfLess, tag := 6 }] []).getD 0 0 = 1 ∧
    (initJumpTable (fun t => if t = 6 then [2] else []) (fun m => m * 10)
        [{ op_code := OpCode.JumpIfNEq, tag := 5 },
         { op_code := OpCode.JumpIfLess, tag := 6 }] []).getD 1 0 = 20 := by
  constructor
  · exact (jump_resolution_spec (fun t => if t = 6 then [2] else [])
      (fun m => m * 10)
      [{ op_code := OpCode.JumpIfNEq, tag := 5 },
       { op_code := OpCode.JumpIfLess, tag := 6 }] [] 0
      (by decide) (by decide) (by decide)).1 rfl
  · exact (jump_resolution_spec (fun t => if t = 6 then [2] else [])
      (fun m => m * 10)
      [{ op_code := OpCode.JumpIfNEq, tag := 5 },
       { op_code := OpCode.JumpIfLess, tag := 6 }] [] 1
      (by decide) (by decide) (by decide)).2 2 [] rfl

/-! ### C1: jump-table size after rebuild -/

/-- C1 counterexample: for a three-instruction program the rebuilt jump
table has 100 entries, not 3, so its size does not equal the program
length. -/
theorem jump_table_size_counterexample :
    ¬((initializeState (fun _ => []) (fun v => v)
        [dummyInstr, dummyInstr, dummyInstr] 0 baseState).jump_table.length
      = ([dummyInstr, dummyInstr, dummyInstr] : List Instruction).length) := by
  decide

/-- C1 amended: after the jump table is rebuilt (at CPU construction,
after Reset, or after Mutate via `InitializeState`), the jump table's
size equals the fixed capacity 100, independent of the program's length;
it equals the program length only for programs of exactly 100
instructions. -/
theorem jump_table_size_always100 (am : Nat → List Nat) (gv : Nat → Nat)
    (prog : List Instruction) (numTasks : Nat) (st : CPUState) :
    (initializeState am gv prog numTasks st).jump_table.length = 100 := by
  simp [initializeState, initJumpTable, writeJumpEntriesAux_length,
    resizeList_length]

/-! ### C10: bounds safety of the jump-table writes -/

/-- C10: InitializeState resizes the jump table to a fixed capacity of
100 entries and then writes an entry at the program index of every
jump-class instruction; these writes are within the table's bounds
exactly when every jump-class instruction sits at an index below 100,
so for every program of length at most 100 no out-of-bounds access
occurs and the checked build agrees with the unchecked one. -/
theorem jump_table_bounds_spec (am : Nat → List Nat) (gv : Nat → Nat)
    (prog : List Instruction) (old : List Nat) :
    ((initJumpTableChecked am gv prog old).isSome = true ↔
      ∀ k, k < prog.length →
        isJumpClass (prog.getD k dummyInstr).op_code = true → k < 100) ∧
    (prog.length ≤ 100 →
      initJumpTableChecked am gv prog old
        = some (initJumpTable am gv prog old)) := by
  have hlen : (resizeList old 100).length = 100 := resizeList_length old 100
  constructor
  · rw [initJumpTableChecked, writeJumpEntriesChecked_isSome]
    constructor <;> intro h k hk hj
    · have := h k hk hj
      omega
    · have := h k hk hj
      omega
  · intro h
    rw [initJumpTableChecked, initJumpTable, writeJumpEntriesChecked_eq]
    intro k hk hj
    omega

/-- Witness for C10 on a concrete two-instruction program. -/
theorem jump_table_bounds_spec_witness :
    initJumpTableChecked (fun t => if t = 6 then [2] else []) (fun m => m * 10)
        [{ op_code := OpCode.JumpIfNEq, tag := 5 },
         { op_code := OpCode.JumpIfLess, tag := 6 }] []
      = some (initJumpTable (fun t => if t = 6 then [2] else [])
          (fun m => m * 10)
          [{ op_code := OpCode.JumpIfNEq, tag := 5 },
           { op_code := OpCode.JumpIfLess, tag := 6 }] []) := by
  exact (jump_table_bounds_spec (fun t => if t = 6 then [2] else [])
    (fun m => m * 10)
    [{ op_code := OpCode.JumpIfNEq, tag := 5 },
     { op_code := OpCode.JumpIfLess, tag := 6 }] []).2 (by decide)
